import Mathlib

/-!
Shallow embedding of the valuation models of the `modeling_financial`
repository (DDM, FCFE, relative valuation, inline FCFF/DCF, and the
numeric input parser), with theorems checking the specified properties.
All machine arithmetic is modelled over `ℚ` (the Python code uses floats;
the properties of interest are exact identities and orderings).
-/

namespace ModelFin

/-! ## Dividend Discount Model (`creating-financial-models/ddm_model.py`) -/

/-- Historical record stored by `DDMModel.set_historical_dividends`
(only the fields later read back by the valuation methods). -/
structure DDMHist where
  dps : List ℚ
  avg_div_growth : ℚ
deriving DecidableEq

/-- The mutable `DDMModel` state consulted by the default-argument logic:
`historical` is `none` while the dict is still empty, `ke_val` is `none`
until `calculate_ke` has been called. -/
structure DDMState where
  historical : Option DDMHist
  ke_val : Option ℚ
deriving DecidableEq

/-- Resolution of `self.historical["dps"][-1] if self.historical.get("dps") else 0`. -/
def resolveD0 (st : DDMState) (d0 : Option ℚ) : ℚ :=
  match d0 with
  | some v => v
  | none =>
    match st.historical with
    | some h => if h.dps = [] then 0 else h.dps.getLastD 0
    | none => 0

/-- Resolution of `self.historical.get("avg_div_growth", 0.03)` (gordon_growth default). -/
def resolveGordonG (st : DDMState) (g : Option ℚ) : ℚ :=
  match g with
  | some v => v
  | none =>
    match st.historical with
    | some h => h.avg_div_growth
    | none => 3/100

/-- Resolution of `max(self.historical.get("avg_div_growth", 0.08), 0.05)` (two-stage / H-model default). -/
def resolveGHigh (st : DDMState) (g : Option ℚ) : ℚ :=
  match g with
  | some v => v
  | none =>
    max (match st.historical with
         | some h => h.avg_div_growth
         | none => 8/100) (5/100)

/-- Resolution of `self.ke_components.get("ke", 0.10)`. -/
def resolveKe (st : DDMState) (ke : Option ℚ) : ℚ :=
  match ke with
  | some v => v
  | none => st.ke_val.getD (1/10)

/-- Successful result dict of `DDMModel.gordon_growth`. -/
structure GordonResult where
  d0 : ℚ
  d1 : ℚ
  growth_rate : ℚ
  ke : ℚ
  target_price : ℚ
  dividend_yield : ℚ
deriving DecidableEq

/-- Outcome of `gordon_growth`: either the error dict (which carries an
`error` key and no `target_price` key) or the full result dict. -/
inductive GordonOut where
  | error : GordonOut
  | ok : GordonResult → GordonOut
deriving DecidableEq

/-- Embedding of `DDMModel.gordon_growth(d0, g, ke)`. -/
def gordon_growth (st : DDMState) (d0? g? ke? : Option ℚ) : GordonOut :=
  let d0 := resolveD0 st d0?
  let g := resolveGordonG st g?
  let ke := resolveKe st ke?
  if ke ≤ g then .error
  else
    let d1 := d0 * (1 + g)
    let price := d1 / (ke - g)
    .ok { d0 := d0
          d1 := d1
          growth_rate := g
          ke := ke
          target_price := price
          dividend_yield := if 0 < price then d1 / price * 100 else 0 }

/-- One entry of `stage1_dividends`: `(year, dividend, pv)`. -/
structure StageDiv where
  year : ℕ
  dividend : ℚ
  pv : ℚ
deriving DecidableEq

/-- The stage-1 loop of `two_stage_ddm`: after `n` iterations returns the
current dividend `d_t`, the accumulated `pv_stage1`, and the rows appended
to `stage1_dividends`. -/
def stage1Loop (d0 g_high ke : ℚ) : ℕ → ℚ × ℚ × List StageDiv
  | 0 => (d0, 0, [])
  | n + 1 =>
    let acc := stage1Loop d0 g_high ke n
    let d := acc.1 * (1 + g_high)
    let pv := d / (1 + ke) ^ (n + 1)
    (d, acc.2.1 + pv, acc.2.2 ++ [⟨n + 1, d, pv⟩])

/-- Successful result dict of `DDMModel.two_stage_ddm`. -/
structure TwoStageResult where
  d0 : ℚ
  g_high : ℚ
  g_stable : ℚ
  high_growth_years : ℕ
  ke : ℚ
  pv_stage1 : ℚ
  pv_terminal : ℚ
  terminal_price : ℚ
  terminal_pct : ℚ
  target_price : ℚ
  stage1_dividends : List StageDiv
deriving DecidableEq

/-- Outcome of `two_stage_ddm`. -/
inductive TwoStageOut where
  | error : TwoStageOut
  | ok : TwoStageResult → TwoStageOut
deriving DecidableEq

/-- Embedding of `DDMModel.two_stage_ddm(d0, g_high, g_stable, high_growth_years, ke)`. -/
def two_stage_ddm (st : DDMState) (d0? g_high? g_stable? : Option ℚ)
    (high_growth_years : ℕ) (ke? : Option ℚ) : TwoStageOut :=
  let d0 := resolveD0 st d0?
  let g_high := resolveGHigh st g_high?
  let g_stable := (g_stable?).getD (3/100)
  let ke := resolveKe st ke?
  if ke ≤ g_stable then .error
  else
    let acc := stage1Loop d0 g_high ke high_growth_years
    let d_terminal := acc.1 * (1 + g_stable)
    let terminal_price := d_terminal / (ke - g_stable)
    let pv_terminal := terminal_price / (1 + ke) ^ high_growth_years
    let price := acc.2.1 + pv_terminal
    .ok { d0 := d0
          g_high := g_high
          g_stable := g_stable
          high_growth_years := high_growth_years
          ke := ke
          pv_stage1 := acc.2.1
          pv_terminal := pv_terminal
          terminal_price := terminal_price
          terminal_pct := if 0 < price then pv_terminal / price * 100 else 0
          target_price := price
          stage1_dividends := acc.2.2 }

/-- Successful result dict of `DDMModel.h_model`. -/
structure HModelResult where
  d0 : ℚ
  g_high : ℚ
  g_stable : ℚ
  half_life_years : ℚ
  h : ℚ
  ke : ℚ
  stable_component : ℚ
  extra_growth_component : ℚ
  target_price : ℚ
deriving DecidableEq

/-- Outcome of `h_model`. -/
inductive HModelOut where
  | error : HModelOut
  | ok : HModelResult → HModelOut
deriving DecidableEq

/-- Embedding of `DDMModel.h_model(d0, g_high, g_stable, half_life_years, ke)`. -/
def h_model (st : DDMState) (d0? g_high? g_stable? : Option ℚ)
    (half_life_years : ℚ) (ke? : Option ℚ) : HModelOut :=
  let d0 := resolveD0 st d0?
  let g_high := resolveGHigh st g_high?
  let g_stable := (g_stable?).getD (3/100)
  let ke := resolveKe st ke?
  if ke ≤ g_stable then .error
  else
    let h := half_life_years / 2
    let stable_value := d0 * (1 + g_stable) / (ke - g_stable)
    let extra_value := d0 * h * (g_high - g_stable) / (ke - g_stable)
    .ok { d0 := d0
          g_high := g_high
          g_stable := g_stable
          half_life_years := half_life_years
          h := h
          ke := ke
          stable_component := stable_value
          extra_growth_component := extra_value
          target_price := stable_value + extra_value }

/-- Embedding of `DDMModel.sensitivity_gordon(d0, ke_range, g_range)`: the cell is
`None` when `ke_val <= g_val` and the Gordon price otherwise. -/
def sensitivity_gordon (d0 : ℚ) (ke_range g_range : List ℚ) :
    List (List (Option ℚ)) :=
  ke_range.map fun ke_val =>
    g_range.map fun g_val =>
      if ke_val ≤ g_val then none
      else some (d0 * (1 + g_val) / (ke_val - g_val))

/-! ## FCFE model (`creating-financial-models/fcfe_model.py`) -/

/-- Historical record stored by `FCFEModel.set_historical` (the fields
read back by `project_fcfe`, plus the derived `fcfe` history). -/
structure FCFEHist where
  years : List ℤ
  net_income : List ℚ
  depreciation : List ℚ
  capex : List ℚ
  nwc : List ℚ
  net_borrowing : List ℚ
  dividends : List ℚ
  fcfe : List ℚ
deriving DecidableEq

/-- The historical FCFE reconstruction loop of `set_historical`:
`FCFE_i = NI_i + Depr_i - CapEx_i - ΔNWC_i + NB_i` with `ΔNWC_0 = 0`. -/
def fcfeHistList (net_income depreciation capex nwc net_borrowing : List ℚ)
    (n : ℕ) : List ℚ :=
  (List.range n).map fun i =>
    let nwc_change : ℚ := if i = 0 then 0 else nwc.getD i 0 - nwc.getD (i - 1) 0
    net_income.getD i 0 + depreciation.getD i 0 - capex.getD i 0 - nwc_change
      + net_borrowing.getD i 0

/-- Embedding of `FCFEModel.set_historical(years, net_income, depreciation, capex, nwc,
net_borrowing, dividends)` (the `payout_pct` entry, unused by any method
modelled here, is omitted). -/
def set_historical (years : List ℤ) (net_income depreciation capex nwc
    net_borrowing dividends : List ℚ) : FCFEHist :=
  { years := years
    net_income := net_income
    depreciation := depreciation
    capex := capex
    nwc := nwc
    net_borrowing := net_borrowing
    dividends := dividends
    fcfe := fcfeHistList net_income depreciation capex nwc net_borrowing
      years.length }

/-- The assumption dict stored by `FCFEModel.set_assumptions`. -/
structure Assumptions where
  projection_years : ℕ
  net_income_growth : List ℚ
  revenue_growth : List ℚ
  depr_percent_rev : List ℚ
  capex_percent_rev : List ℚ
  nwc_percent_rev : List ℚ
  net_borrowing_growth : List ℚ
  terminal_growth : ℚ
  base_revenue : ℚ
deriving DecidableEq

/-- One projected year of `project_fcfe` (the per-key lists of the Python
`proj` dict, transposed into rows). -/
structure ProjRow where
  year : ℕ
  revenue : ℚ
  net_income : ℚ
  depreciation : ℚ
  capex : ℚ
  nwc : ℚ
  nwc_change : ℚ
  net_borrowing : ℚ
  fcfe : ℚ
deriving DecidableEq

/-- The projection loop of `project_fcfe`, iterating `fuel` more years
starting at loop index `i`. -/
def projectLoop (a : Assumptions) (i fuel : ℕ)
    (prev_ni prev_rev prev_nwc : ℚ) : List ProjRow :=
  match fuel with
  | 0 => []
  | fuel' + 1 =>
    let rev := prev_rev * (1 + a.revenue_growth.getD i 0)
    let ni := prev_ni * (1 + a.net_income_growth.getD i 0)
    let depr := rev * a.depr_percent_rev.getD i 0
    let capex := rev * a.capex_percent_rev.getD i 0
    let curr_nwc := rev * a.nwc_percent_rev.getD i 0
    let nwc_change := curr_nwc - prev_nwc
    let nb := a.net_borrowing_growth.getD i 0
    let fcfe := ni + depr - capex - nwc_change + nb
    { year := i + 1, revenue := rev, net_income := ni, depreciation := depr,
      capex := capex, nwc := curr_nwc, nwc_change := nwc_change,
      net_borrowing := nb, fcfe := fcfe }
      :: projectLoop a (i + 1) fuel' ni rev curr_nwc

/-- The valuation dict produced by `calculate_equity_value`. -/
structure FCFEValuation where
  equity_value : ℚ
  pv_fcfe : ℚ
  pv_terminal : ℚ
  terminal_value : ℚ
  terminal_pct : ℚ
  shares : ℚ
  value_per_share : ℚ
  pv_fcfe_detail : List ℚ
deriving DecidableEq

/-- The mutable `FCFEModel` state: `projections` is `none` while
`self.projections` is still the empty dict, `valuation` is `none` while
`self.valuation` is. Only `ke_components["ke"]` is ever read or written,
so `ke` stands for that entry. -/
structure FCFEModel where
  historical : FCFEHist
  assumptions : Assumptions
  ke : ℚ
  projections : Option (List ProjRow)
  valuation : Option FCFEValuation
deriving DecidableEq

/-- Embedding of `FCFEModel.project_fcfe()`: recompute `self.projections` from the
historical record and the assumptions. -/
def project_fcfe (m : FCFEModel) : FCFEModel :=
  let base_ni := m.historical.net_income.getLastD 0
  let base_rev := m.assumptions.base_revenue
  let prev_nwc := m.historical.nwc.getLastD 0
  let rows := projectLoop m.assumptions 0 m.assumptions.projection_years
    base_ni base_rev prev_nwc
  { m with projections := some rows }

/-- Embedding of `FCFEModel.calculate_equity_value(shares_outstanding)`: returns the
valuation dict and the updated model state. -/
def calculate_equity_value (m : FCFEModel) (shares_outstanding : ℚ) :
    FCFEValuation × FCFEModel :=
  let m' := match m.projections with
    | none => project_fcfe m
    | some _ => m
  let rows := (m'.projections).getD []
  let ke := m'.ke
  let g := m'.assumptions.terminal_growth
  let n := m'.assumptions.projection_years
  let fcfe := rows.map (·.fcfe)
  let pv_fcfe_list := fcfe.enum.map fun p => p.2 / (1 + ke) ^ (p.1 + 1)
  let total_pv_fcfe := pv_fcfe_list.sum
  let tv : ℚ × ℚ :=
    if ke ≤ g then (0, 0)
    else
      let terminal_fcfe := fcfe.getLastD 0 * (1 + g)
      let terminal_value := terminal_fcfe / (ke - g)
      (terminal_value, terminal_value / (1 + ke) ^ n)
  let equity_value := total_pv_fcfe + tv.2
  let val : FCFEValuation :=
    { equity_value := equity_value
      pv_fcfe := total_pv_fcfe
      pv_terminal := tv.2
      terminal_value := tv.1
      terminal_pct := if 0 < equity_value then tv.2 / equity_value * 100 else 0
      shares := shares_outstanding
      value_per_share := if 0 < shares_outstanding
        then equity_value / shares_outstanding else 0
      pv_fcfe_detail := pv_fcfe_list }
  (val, { m' with valuation := some val })

/-- One grid cell of `sensitivity_analysis`: override Ke and terminal
growth, re-project and re-value, and record `value_per_share`. -/
def sensCell (shares ke_val g_val : ℚ) (m : FCFEModel) : ℚ × FCFEModel :=
  let m1 := { m with ke := ke_val,
                     assumptions := { m.assumptions with terminal_growth := g_val } }
  let m2 := project_fcfe m1
  let r := calculate_equity_value m2 shares
  (r.1.value_per_share, r.2)

/-- Inner loop of `sensitivity_analysis` (one row, fixed `ke_val`). -/
def sensRow (shares ke_val : ℚ) : List ℚ → FCFEModel → List ℚ × FCFEModel
  | [], m => ([], m)
  | g_val :: gs, m =>
    let c := sensCell shares ke_val g_val m
    let rest := sensRow shares ke_val gs c.2
    (c.1 :: rest.1, rest.2)

/-- Outer loop of `sensitivity_analysis` over `ke_range`. -/
def sensRows (shares : ℚ) (g_range : List ℚ) :
    List ℚ → FCFEModel → List (List ℚ) × FCFEModel
  | [], m => ([], m)
  | ke_val :: ks, m =>
    let r := sensRow shares ke_val g_range m
    let rest := sensRows shares g_range ks r.2
    (r.1 :: rest.1, rest.2)

/-- Embedding of `FCFEModel.sensitivity_analysis(ke_range, g_range, shares_outstanding)`:
runs the grid, then restores the original Ke and terminal growth and
re-projects. Returns the 2D result table and the post-call state. -/
def sensitivity_analysis (m : FCFEModel) (ke_range g_range : List ℚ)
    (shares_outstanding : ℚ) : List (List ℚ) × FCFEModel :=
  let original_ke := m.ke
  let original_g := m.assumptions.terminal_growth
  let r := sensRows shares_outstanding g_range ke_range m
  let restored := project_fcfe
    { r.2 with ke := original_ke,
               assumptions := { r.2.assumptions with terminal_growth := original_g } }
  (r.1, restored)

/-! ## Relative valuation (`creating-financial-models/relative_valuation.py`) -/

/-- One peer's multiples; a `none` entry is a key absent from the peer
dict. -/
structure PeerData where
  pe : Option ℚ
  pb : Option ℚ
  ev_ebitda : Option ℚ
deriving DecidableEq

/-- The metric values kept by `_peer_avg` / `_peer_median`: peers missing
the key (`metric in p`) or with a falsy (zero) value are dropped. -/
def peerValues (peers : List PeerData) (metric : PeerData → Option ℚ) :
    List ℚ :=
  peers.filterMap fun p =>
    match metric p with
    | some v => if v = 0 then none else some v
    | none => none

/-- Embedding of `RelativeValuation._peer_avg(metric)`. -/
def peer_avg (peers : List PeerData) (metric : PeerData → Option ℚ) :
    Option ℚ :=
  let values := peerValues peers metric
  if values = [] then none else some (values.sum / values.length)

/-- Embedding of `RelativeValuation._peer_median(metric)`: sort the kept values and
take the midpoint (average of the two middle values on an even count). -/
def peer_median (peers : List PeerData) (metric : PeerData → Option ℚ) :
    Option ℚ :=
  let values := (peerValues peers metric).insertionSort (· ≤ ·)
  if values = [] then none
  else
    let mid := values.length / 2
    if values.length % 2 = 0 then
      some ((values.getD (mid - 1) 0 + values.getD mid 0) / 2)
    else
      some (values.getD mid 0)

/-- The company financials consulted by the three multiple methods
(`set_financials` fields not read by them are omitted). -/
structure RelFin where
  eps : Option ℚ
  bvps : Option ℚ
  ebitda : Option ℚ
  net_debt : ℚ
  shares : ℚ
deriving DecidableEq

/-- State of `RelativeValuation` needed by `run_all`. -/
structure RelState where
  financials : RelFin
  peers : List PeerData
deriving DecidableEq

/-- Successful result of `valuation_pe` (the `target_price`-bearing
fields; the optional market-price comparison keys are not modelled). -/
structure PEResult where
  eps : ℚ
  target_pe : ℚ
  target_price : ℚ
deriving DecidableEq

/-- Outcome of `valuation_pe`: an error dict or a result dict. -/
inductive PEOut where
  | error : PEOut
  | ok : PEResult → PEOut
deriving DecidableEq

/-- Embedding of `RelativeValuation.valuation_pe(target_pe)` (with `use_median` left
at its default `False`, as `run_all` calls it). -/
def valuation_pe (st : RelState) (target_pe? : Option ℚ) : PEOut :=
  match st.financials.eps with
  | none => .error
  | some eps =>
    if eps ≤ 0 then .error
    else
      match target_pe?.orElse fun _ => peer_avg st.peers (·.pe) with
      | none => .error
      | some target_pe =>
        .ok { eps := eps, target_pe := target_pe,
              target_price := eps * target_pe }

/-- Successful result of `valuation_pb`. -/
structure PBResult where
  bvps : ℚ
  target_pb : ℚ
  target_price : ℚ
deriving DecidableEq

/-- Outcome of `valuation_pb`. -/
inductive PBOut where
  | error : PBOut
  | ok : PBResult → PBOut
deriving DecidableEq

/-- Embedding of `RelativeValuation.valuation_pb(target_pb)`. -/
def valuation_pb (st : RelState) (target_pb? : Option ℚ) : PBOut :=
  match st.financials.bvps with
  | none => .error
  | some bvps =>
    if bvps ≤ 0 then .error
    else
      match target_pb?.orElse fun _ => peer_avg st.peers (·.pb) with
      | none => .error
      | some target_pb =>
        .ok { bvps := bvps, target_pb := target_pb,
              target_price := bvps * target_pb }

/-- Successful result of `valuation_ev_ebitda`. -/
structure EVResult where
  ebitda : ℚ
  target_multiple : ℚ
  enterprise_value : ℚ
  net_debt : ℚ
  equity_value : ℚ
  target_price : ℚ
deriving DecidableEq

/-- Outcome of `valuation_ev_ebitda`. -/
inductive EVOut where
  | error : EVOut
  | ok : EVResult → EVOut
deriving DecidableEq

/-- Embedding of `RelativeValuation.valuation_ev_ebitda(target_multiple)`. -/
def valuation_ev_ebitda (st : RelState) (target_multiple? : Option ℚ) :
    EVOut :=
  match st.financials.ebitda with
  | none => .error
  | some ebitda =>
    if ebitda ≤ 0 then .error
    else
      match target_multiple?.orElse fun _ => peer_avg st.peers (·.ev_ebitda) with
      | none => .error
      | some target_multiple =>
        let ev := ebitda * target_multiple
        let equity_value := ev - st.financials.net_debt
        .ok { ebitda := ebitda
              target_multiple := target_multiple
              enterprise_value := ev
              net_debt := st.financials.net_debt
              equity_value := equity_value
              target_price := if 0 < st.financials.shares
                then equity_value / st.financials.shares * 1000 else 0 }

/-- The `target_price` of a `valuation_pe` outcome, when the key exists. -/
def PEOut.tp? : PEOut → Option ℚ
  | .error => none
  | .ok r => some r.target_price

/-- The `target_price` of a `valuation_pb` outcome, when the key exists. -/
def PBOut.tp? : PBOut → Option ℚ
  | .error => none
  | .ok r => some r.target_price

/-- The `target_price` of a `valuation_ev_ebitda` outcome. -/
def EVOut.tp? : EVOut → Option ℚ
  | .error => none
  | .ok r => some r.target_price

/-- Python `min` over a nonempty list (0 on the empty list, where Python
would raise). -/
def pyMin : List ℚ → ℚ
  | [] => 0
  | x :: xs => xs.foldl min x

/-- Python `max` over a nonempty list. -/
def pyMax : List ℚ → ℚ
  | [] => 0
  | x :: xs => xs.foldl max x

/-- The `fair_value_low/avg/high` keys added to a `run_all` summary. -/
structure FairRange where
  low : ℚ
  high : ℚ
  avg : ℚ
deriving DecidableEq

/-- Computes `min(prices)`, `max(prices)`, `sum(prices)/len(prices)`. -/
def fairOf (prices : List ℚ) : FairRange :=
  { low := pyMin prices, high := pyMax prices,
    avg := prices.sum / prices.length }

/-- Summary dict of `RelativeValuation.run_all`: the three method results
plus the fair-value keys, present only when at least one positive
`target_price` was collected. -/
structure RelSummary where
  pe : PEOut
  pb : PBOut
  ev_ebitda : EVOut
  fair : Option FairRange
deriving DecidableEq

/-- The `prices` list collected by `RelativeValuation.run_all`. -/
def relPrices (pe : PEOut) (pb : PBOut) (ev : EVOut) : List ℚ :=
  ([pe.tp?, pb.tp?, ev.tp?].filterMap id).filter fun p => 0 < p

/-- Embedding of `RelativeValuation.run_all(target_pe, target_pb, target_ev_ebitda)`. -/
def rel_run_all (st : RelState) (target_pe? target_pb? target_ev? : Option ℚ) :
    RelSummary :=
  let pe_result := valuation_pe st target_pe?
  let pb_result := valuation_pb st target_pb?
  let ev_result := valuation_ev_ebitda st target_ev?
  let prices := relPrices pe_result pb_result ev_result
  { pe := pe_result
    pb := pb_result
    ev_ebitda := ev_result
    fair := if prices = [] then none else some (fairOf prices) }

/-- The `target_price` of a `gordon_growth` outcome. -/
def GordonOut.tp? : GordonOut → Option ℚ
  | .error => none
  | .ok r => some r.target_price

/-- The `target_price` of a `two_stage_ddm` outcome. -/
def TwoStageOut.tp? : TwoStageOut → Option ℚ
  | .error => none
  | .ok r => some r.target_price

/-- The `target_price` of an `h_model` outcome. -/
def HModelOut.tp? : HModelOut → Option ℚ
  | .error => none
  | .ok r => some r.target_price

/-- Summary dict of `DDMModel.run_all`. -/
structure DDMSummary where
  gordon : GordonOut
  two_stage : TwoStageOut
  h_model : HModelOut
  fair : Option FairRange
deriving DecidableEq

/-- The `prices` list collected by `DDMModel.run_all`. -/
def ddmPrices (g : GordonOut) (t : TwoStageOut) (h : HModelOut) : List ℚ :=
  ([g.tp?, t.tp?, h.tp?].filterMap id).filter fun p => 0 < p

/-- Embedding of `DDMModel.run_all(d0, g_high, g_stable, ke)` (the defaulted
`high_growth_years=5` and `half_life_years=5` of the callees). -/
def ddm_run_all (st : DDMState) (d0? g_high? g_stable? ke? : Option ℚ) :
    DDMSummary :=
  let gordon := gordon_growth st d0? g_stable? ke?
  let two_stage := two_stage_ddm st d0? g_high? g_stable? 5 ke?
  let hm := h_model st d0? g_high? g_stable? 5 ke?
  let prices := ddmPrices gordon two_stage hm
  { gordon := gordon
    two_stage := two_stage
    h_model := hm
    fair := if prices = [] then none else some (fairOf prices) }

/-! ## Inline DCF model (`scripts/run_dcf.py`, class `DCFModel`) -/

/-- The `DCFModel` state read by `calc_value` (projected FCFs, the cached
WACC, the terminal growth and the projection-year count). -/
structure DCFState where
  fcf : List ℚ
  wacc : ℚ
  terminal_growth : ℚ
  years : ℕ
deriving DecidableEq

/-- The `self.valuation` dict set by `DCFModel.calc_value`. -/
structure DCFValuation where
  ev : ℚ
  pv_fcf : ℚ
  pv_term : ℚ
  term_val : ℚ
deriving DecidableEq

/-- Embedding of `DCFModel.calc_value()` (the method returns `ev`; the full valuation
dict is modelled so each component can be inspected). -/
def calc_value (st : DCFState) : DCFValuation :=
  let wacc := st.wacc
  let g := st.terminal_growth
  let pv_fcf := (st.fcf.enum.map fun p => p.2 / (1 + wacc) ^ (p.1 + 1)).sum
  let tv : ℚ × ℚ :=
    if wacc ≤ g then (0, 0)
    else
      let term_fcf := st.fcf.getLastD 0 * (1 + g)
      let term_val := term_fcf / (wacc - g)
      (term_val, term_val / (1 + wacc) ^ st.years)
  { ev := pv_fcf + tv.2, pv_fcf := pv_fcf, pv_term := tv.2, term_val := tv.1 }

/-! ## Numeric input parsing (`parse_num` in `scripts/run_dcf.py` and
`scripts/run_all_valuations.py`) -/

/-- A Python value reaching `parse_num`: a number or a string. -/
inductive PyVal where
  | num : ℚ → PyVal
  | str : String → PyVal
deriving DecidableEq

/-- Python truthiness of the `parse_num` argument (`if not s`). -/
def pyFalsy : PyVal → Bool
  | .num q => q = 0
  | .str t => t = ""

/-- Python `str.strip()`: drop leading and trailing whitespace. -/
def stripChars (l : List Char) : List Char :=
  ((l.dropWhile Char.isWhitespace).reverse.dropWhile Char.isWhitespace).reverse

/-- Models `s.replace(',', '').replace('"', '').strip()`, on the character
sequence of `s` (removing the two characters in one pass is equivalent to
the two successive `replace` calls). -/
def cleanNumString (s : String) : List Char :=
  stripChars (s.toList.filter fun c => !(c = ',' || c = '\x22'))

/-- Value of `int(...)` on a digit run. -/
def digitsToNat (l : List Char) : ℕ :=
  l.foldl (fun n c => 10 * n + (c.toNat - 48)) 0

/-- Model of Python `float(str)` on finite decimal literals: optional
sign, digits with an optional decimal point, optional exponent. Returns
`none` where `float` raises `ValueError`. (`inf`/`nan` spellings and
underscore digit separators are outside the data this parser receives.) -/
def parseFloat? (cs : List Char) : Option ℚ :=
  let sgncs : ℚ × List Char :=
    match cs with
    | '+' :: rest => (1, rest)
    | '-' :: rest => (-1, rest)
    | _ => (1, cs)
  let ip := sgncs.2.takeWhile Char.isDigit
  let cs2 := sgncs.2.dropWhile Char.isDigit
  let fpcs : List Char × List Char :=
    match cs2 with
    | '.' :: rest => (rest.takeWhile Char.isDigit, rest.dropWhile Char.isDigit)
    | _ => ([], cs2)
  if ip = [] ∧ fpcs.1 = [] then none
  else
    let mant : ℚ := (digitsToNat (ip ++ fpcs.1) : ℚ) / 10 ^ fpcs.1.length
    match fpcs.2 with
    | [] => some (sgncs.1 * mant)
    | e :: rest =>
      if e = 'e' ∨ e = 'E' then
        let esgn : Bool × List Char :=
          match rest with
          | '+' :: r => (true, r)
          | '-' :: r => (false, r)
          | _ => (true, rest)
        let ed := esgn.2.takeWhile Char.isDigit
        let rest2 := esgn.2.dropWhile Char.isDigit
        if ed = [] ∨ rest2 ≠ [] then none
        else
          let ex := digitsToNat ed
          some (sgncs.1 * (if esgn.1 then mant * 10 ^ ex else mant / 10 ^ ex))
      else none

/-- Embedding of `parse_num(s)`: falsy input is 0.0, numbers pass through `float`,
strings are cleaned and parsed, and any parse failure is coerced to 0.0
(the `except` clause). -/
def parse_num (s : PyVal) : ℚ :=
  if pyFalsy s then 0
  else
    match s with
    | .num q => q
    | .str t => (parseFloat? (cleanNumString t)).getD 0

/-! ## Theorems -/

/-- Element `i < n` of the historical FCFE list. -/
theorem fcfeHistList_getD (ni dep cap nwc nb : List ℚ) (n i : ℕ)
    (hi : i < n) :
    (fcfeHistList ni dep cap nwc nb n).getD i 0
      = ni.getD i 0 + dep.getD i 0 - cap.getD i 0
          - (if i = 0 then 0 else nwc.getD i 0 - nwc.getD (i - 1) 0)
          + nb.getD i 0 := by
  have h1 : (fcfeHistList ni dep cap nwc nb n).getD i 0
      = ((List.range n).map fun j =>
          let nwc_change : ℚ := if j = 0 then 0 else nwc.getD j 0 - nwc.getD (j - 1) 0
          ni.getD j 0 + dep.getD j 0 - cap.getD j 0 - nwc_change
            + nb.getD j 0).getD i 0 := rfl
  rw [h1, List.getD_eq_getElem?_getD, List.getElem?_map, List.getElem?_range hi]
  rfl

/-- C6: in `FCFEModel.set_historical`, the first historical year's FCFE is
`net_income[0] + depreciation[0] − capex[0] + net_borrowing[0]` whatever
the NWC array holds, and every later year `i` subtracts
`nwc[i] − nwc[i−1]`. -/
theorem fcfe_hist_first_year_nwc_zero (years : List ℤ)
    (ni dep cap nwc nb dv : List ℚ) (h1 : 1 ≤ years.length) :
    ((set_historical years ni dep cap nwc nb dv).fcfe.getD 0 0
        = ni.getD 0 0 + dep.getD 0 0 - cap.getD 0 0 + nb.getD 0 0) ∧
    ∀ i, 1 ≤ i → i < years.length →
      (set_historical years ni dep cap nwc nb dv).fcfe.getD i 0
        = ni.getD i 0 + dep.getD i 0 - cap.getD i 0
            - (nwc.getD i 0 - nwc.getD (i - 1) 0) + nb.getD i 0 := by
  constructor
  · rw [show (set_historical years ni dep cap nwc nb dv).fcfe
        = fcfeHistList ni dep cap nwc nb years.length from rfl,
      fcfeHistList_getD ni dep cap nwc nb years.length 0 h1]
    simp
  · intro i hi1 hi2
    rw [show (set_historical years ni dep cap nwc nb dv).fcfe
        = fcfeHistList ni dep cap nwc nb years.length from rfl,
      fcfeHistList_getD ni dep cap nwc nb years.length i hi2,
      if_neg (by omega : ¬ i = 0)]

/-- Witness for `fcfe_hist_first_year_nwc_zero` at a concrete two-year
history. -/
theorem fcfe_hist_first_year_nwc_zero_witness :
    ((set_historical [2024, 2025] [1, 2] [3, 4] [5, 6] [7, 9] [11, 13]
        [0, 0]).fcfe.getD 0 0 = 1 + 3 - 5 + 11) ∧
    ((set_historical [2024, 2025] [1, 2] [3, 4] [5, 6] [7, 9] [11, 13]
        [0, 0]).fcfe.getD 1 0 = 2 + 4 - 6 - (9 - 7) + 13) :=
  ⟨(fcfe_hist_first_year_nwc_zero [2024, 2025] [1, 2] [3, 4] [5, 6] [7, 9]
      [11, 13] [0, 0] (by decide)).1,
   (fcfe_hist_first_year_nwc_zero [2024, 2025] [1, 2] [3, 4] [5, 6] [7, 9]
      [11, 13] [0, 0] (by decide)).2 1 (by decide) (by decide)⟩

/-- C1 counterexample: at `fcf = [100]`, `wacc = 2% ≤ g = 3%`,
`calc_value` returns `ev = 100/1.02 ≠ 0`, not a zero enterprise value. -/
theorem calc_value_guard_cex :
    (DCFState.mk [100] (1/50) (3/100) 1).wacc
        ≤ (DCFState.mk [100] (1/50) (3/100) 1).terminal_growth ∧
    (calc_value (DCFState.mk [100] (1/50) (3/100) 1)).ev ≠ 0 := by
  constructor
  · norm_num
  · norm_num [calc_value]

/-- C1 amended: when `wacc ≤ terminal growth`, `calc_value` zeroes the
terminal value and its present value, so the enterprise value is the
present value of the projected cash flows alone (not zero). -/
theorem calc_value_guard_zeroes_terminal (st : DCFState)
    (h : st.wacc ≤ st.terminal_growth) :
    (calc_value st).term_val = 0 ∧ (calc_value st).pv_term = 0 ∧
    (calc_value st).ev = (calc_value st).pv_fcf := by
  simp [calc_value, h]

/-- Witness for `calc_value_guard_zeroes_terminal`. -/
theorem calc_value_guard_zeroes_terminal_witness :
    (calc_value (DCFState.mk [100] (1/50) (3/100) 1)).term_val = 0 ∧
    (calc_value (DCFState.mk [100] (1/50) (3/100) 1)).pv_term = 0 ∧
    (calc_value (DCFState.mk [100] (1/50) (3/100) 1)).ev
      = (calc_value (DCFState.mk [100] (1/50) (3/100) 1)).pv_fcf :=
  calc_value_guard_zeroes_terminal (DCFState.mk [100] (1/50) (3/100) 1)
    (by norm_num)

/-- C8: in `FCFEModel.calculate_equity_value`, whenever `Ke ≤ terminal
growth` the terminal value and its present value are zero and the equity
value is the sum of the discounted projected FCFE alone. -/
theorem fcfe_terminal_guard_zeroes (m : FCFEModel) (sh : ℚ)
    (h : m.ke ≤ m.assumptions.terminal_growth) :
    (calculate_equity_value m sh).1.terminal_value = 0 ∧
    (calculate_equity_value m sh).1.pv_terminal = 0 ∧
    (calculate_equity_value m sh).1.equity_value
      = (calculate_equity_value m sh).1.pv_fcfe := by
  cases hp : m.projections with
  | none => simp [calculate_equity_value, hp, project_fcfe, h]
  | some rows => simp [calculate_equity_value, hp, h]

/-- Witness for `fcfe_terminal_guard_zeroes` on a concrete model with
`Ke = terminal growth = 0`. -/
theorem fcfe_terminal_guard_zeroes_witness :
    (calculate_equity_value
        (FCFEModel.mk (set_historical [2024] [100] [0] [0] [0] [0] [0])
          (Assumptions.mk 1 [0] [0] [0] [0] [0] [0] 0 100) 0 none none)
        1).1.terminal_value = 0 ∧
    (calculate_equity_value
        (FCFEModel.mk (set_historical [2024] [100] [0] [0] [0] [0] [0])
          (Assumptions.mk 1 [0] [0] [0] [0] [0] [0] 0 100) 0 none none)
        1).1.pv_terminal = 0 ∧
    (calculate_equity_value
        (FCFEModel.mk (set_historical [2024] [100] [0] [0] [0] [0] [0])
          (Assumptions.mk 1 [0] [0] [0] [0] [0] [0] 0 100) 0 none none)
        1).1.equity_value
      = (calculate_equity_value
          (FCFEModel.mk (set_historical [2024] [100] [0] [0] [0] [0] [0])
            (Assumptions.mk 1 [0] [0] [0] [0] [0] [0] 0 100) 0 none none)
          1).1.pv_fcfe :=
  fcfe_terminal_guard_zeroes
    (FCFEModel.mk (set_historical [2024] [100] [0] [0] [0] [0] [0])
      (Assumptions.mk 1 [0] [0] [0] [0] [0] [0] 0 100) 0 none none)
    1 (by norm_num)

/-- Unfolding of the stage-1 dividend after one more year. -/
theorem stage1Loop_succ_fst (d0 g ke : ℚ) (n : ℕ) :
    (stage1Loop d0 g ke (n + 1)).1 = (stage1Loop d0 g ke n).1 * (1 + g) := rfl

/-- Unfolding of the accumulated stage-1 present value. -/
theorem stage1Loop_succ_sum (d0 g ke : ℚ) (n : ℕ) :
    (stage1Loop d0 g ke (n + 1)).2.1
      = (stage1Loop d0 g ke n).2.1
          + (stage1Loop d0 g ke n).1 * (1 + g) / (1 + ke) ^ (n + 1) := rfl

/-- The stage-1 dividend after `n` years of growth at rate `g`. -/
theorem stage1Loop_fst (d0 g ke : ℚ) (n : ℕ) :
    (stage1Loop d0 g ke n).1 = d0 * (1 + g) ^ n := by
  induction n with
  | zero => simp [stage1Loop]
  | succ n ih => rw [stage1Loop_succ_fst, ih, pow_succ, mul_assoc]

/-- Closed form of the accumulated stage-1 present value when both growth
rates equal `g`. -/
theorem stage1Loop_sum_closed (d0 g ke : ℚ) (hkg : g < ke)
    (hke : (1 : ℚ) + ke ≠ 0) (n : ℕ) :
    (stage1Loop d0 g ke n).2.1
      = d0 * (1 + g) / (ke - g)
          - d0 * (1 + g) ^ (n + 1) / ((ke - g) * (1 + ke) ^ n) := by
  have hsub : ke - g ≠ 0 := sub_ne_zero.mpr (ne_of_gt hkg)
  induction n with
  | zero =>
    rw [show (stage1Loop d0 g ke 0).2.1 = 0 from rfl]
    field_simp
  | succ n ih =>
    have hpow : ((1 : ℚ) + ke) ^ n ≠ 0 := pow_ne_zero _ hke
    rw [stage1Loop_succ_sum, ih, stage1Loop_fst]
    field_simp
    ring

/-- C3: for every `d0`, every `ke > g` with `1 + ke ≠ 0` (where the code
does not divide by zero), and every `n ≥ 1`, the Two-Stage DDM price with
`g_high = g_stable = g` equals the Gordon Growth price
`d0·(1+g)/(ke−g)` exactly over the rationals. -/
theorem two_stage_equal_growth_is_gordon (st : DDMState) (d0 g ke : ℚ)
    (n : ℕ) (_hn : 1 ≤ n) (hkg : g < ke) (hke : (1 : ℚ) + ke ≠ 0) :
    ∃ r, two_stage_ddm st (some d0) (some g) (some g) n (some ke) = .ok r ∧
      r.target_price = d0 * (1 + g) / (ke - g) := by
  have hsub : ke - g ≠ 0 := sub_ne_zero.mpr (ne_of_gt hkg)
  have hpow : ((1 : ℚ) + ke) ^ n ≠ 0 := pow_ne_zero _ hke
  rw [two_stage_ddm]
  simp only [resolveD0, resolveGHigh, resolveKe, Option.getD_some]
  rw [if_neg (not_le.mpr hkg)]
  refine ⟨_, rfl, ?_⟩
  show (stage1Loop d0 g ke n).2.1
      + (stage1Loop d0 g ke n).1 * (1 + g) / (ke - g) / (1 + ke) ^ n
    = d0 * (1 + g) / (ke - g)
  rw [stage1Loop_sum_closed d0 g ke hkg hke n, stage1Loop_fst]
  field_simp
  ring

/-- Witness for `two_stage_equal_growth_is_gordon`:
`d0 = 1000, g = 3%, ke = 10%, n = 5`. -/
theorem two_stage_equal_growth_is_gordon_witness :
    ∃ r, two_stage_ddm (DDMState.mk none none) (some 1000) (some (3/100))
        (some (3/100)) 5 (some (1/10)) = .ok r ∧
      r.target_price = 1000 * (1 + 3/100) / (1/10 - 3/100) :=
  two_stage_equal_growth_is_gordon (DDMState.mk none none) 1000 (3/100)
    (1/10) 5 (by norm_num) (by norm_num) (by norm_num)

/-- C4 counterexample: at `d0 = 0`, `g = 3% < ke = 10%`, the Gordon
Growth price is `0`, not strictly positive — the claim fails without a
`d0 > 0` assumption. -/
theorem gordon_not_positive_at_zero_d0 :
    (3/100 : ℚ) < 1/10 ∧
    (gordon_growth (DDMState.mk none none) (some 0) (some (3/100))
        (some (1/10))).tp? = some 0 := by
  constructor
  · norm_num
  · rw [gordon_growth]
    simp only [resolveD0, resolveGordonG, resolveKe]
    rw [if_neg (by norm_num : ¬ (1/10 : ℚ) ≤ 3/100)]
    simp [GordonOut.tp?]

/-- C4 amended: for `d0 > 0` and `−1 < g < ke` (so the formula describes
an actual dividend stream), the Gordon Growth price is strictly positive,
strictly increasing in `g` at fixed `ke`, and strictly decreasing in `ke`
at fixed `g`. -/
theorem gordon_pos_increasing_g_decreasing_ke (st : DDMState)
    (d0 g g' ke ke' : ℚ) (hd : 0 < d0) (hg : -1 < g) (h1 : g < ke)
    (hgg : g < g') (h2 : g' < ke) (hke : ke < ke') :
    ∃ r r' r2,
      gordon_growth st (some d0) (some g) (some ke) = .ok r ∧
      gordon_growth st (some d0) (some g') (some ke) = .ok r' ∧
      gordon_growth st (some d0) (some g) (some ke') = .ok r2 ∧
      0 < r.target_price ∧
      r.target_price < r'.target_price ∧
      r2.target_price < r.target_price := by
  rw [gordon_growth, gordon_growth, gordon_growth]
  simp only [resolveD0, resolveGordonG, resolveKe]
  rw [if_neg (not_le.mpr h1), if_neg (not_le.mpr h2),
    if_neg (not_le.mpr (lt_trans h1 hke))]
  refine ⟨_, _, _, rfl, rfl, rfl, ?_, ?_, ?_⟩
  · exact div_pos (mul_pos hd (by linarith)) (by linarith)
  · rw [div_lt_div_iff₀ (by linarith) (by linarith)]
    nlinarith [mul_pos hd (mul_pos (sub_pos.mpr hgg)
      (show (0 : ℚ) < 1 + ke by linarith))]
  · exact div_lt_div_of_pos_left (mul_pos hd (by linarith)) (by linarith)
      (by linarith)

/-- Witness for `gordon_pos_increasing_g_decreasing_ke` at
`d0 = 1000, g = 3%, g' = 4%, ke = 10%, ke' = 12%`. -/
theorem gordon_pos_increasing_g_decreasing_ke_witness :
    ∃ r r' r2,
      gordon_growth (DDMState.mk none none) (some 1000) (some (3/100))
          (some (1/10)) = .ok r ∧
      gordon_growth (DDMState.mk none none) (some 1000) (some (1/25))
          (some (1/10)) = .ok r' ∧
      gordon_growth (DDMState.mk none none) (some 1000) (some (3/100))
          (some (3/25)) = .ok r2 ∧
      0 < r.target_price ∧
      r.target_price < r'.target_price ∧
      r2.target_price < r.target_price :=
  gordon_pos_increasing_g_decreasing_ke (DDMState.mk none none) 1000
    (3/100) (1/25) (1/10) (3/25) (by norm_num) (by norm_num) (by norm_num)
    (by norm_num) (by norm_num) (by norm_num)

/-- C5: `gordon_growth` returns the labeled error dict (no
`target_price`) exactly when `ke ≤ g` and a numeric price otherwise, and
the corresponding `sensitivity_gordon` cell is `None` exactly when
`ke ≤ g` and the numeric Gordon price otherwise. -/
theorem gordon_error_and_sensitivity_policy (st : DDMState) (d0 g ke : ℚ)
    (kr gr : List ℚ) :
    (ke ≤ g → gordon_growth st (some d0) (some g) (some ke) = .error) ∧
    (g < ke → ∃ r, gordon_growth st (some d0) (some g) (some ke) = .ok r) ∧
    ∀ i j, i < kr.length → j < gr.length →
      ((((sensitivity_gordon d0 kr gr).getD i []).getD j (some 0) = none ↔
          kr.getD i 0 ≤ gr.getD j 0) ∧
       (gr.getD j 0 < kr.getD i 0 →
          ((sensitivity_gordon d0 kr gr).getD i []).getD j (some 0)
            = some (d0 * (1 + gr.getD j 0)
                / (kr.getD i 0 - gr.getD j 0)))) := by
  refine ⟨?_, ?_, ?_⟩
  · intro h
    rw [gordon_growth]
    simp only [resolveD0, resolveGordonG, resolveKe]
    rw [if_pos h]
  · intro h
    rw [gordon_growth]
    simp only [resolveD0, resolveGordonG, resolveKe]
    rw [if_neg (not_le.mpr h)]
    exact ⟨_, rfl⟩
  · intro i j hi hj
    have hlen : i < (sensitivity_gordon d0 kr gr).length := by
      simpa [sensitivity_gordon] using hi
    have hrow : (sensitivity_gordon d0 kr gr).getD i []
        = (sensitivity_gordon d0 kr gr).get ⟨i, hlen⟩ :=
      List.getD_eq_getElem _ _ hlen
    have hrow2 : (sensitivity_gordon d0 kr gr).get ⟨i, hlen⟩
        = gr.map fun g_val =>
            if kr[i] ≤ g_val then none
            else some (d0 * (1 + g_val) / (kr[i] - g_val)) := by
      simp [sensitivity_gordon]
    have hjlen : j < (gr.map fun g_val =>
        if kr[i] ≤ g_val then none
        else some (d0 * (1 + g_val) / (kr[i] - g_val))).length := by
      simpa using hj
    have hcell : ((sensitivity_gordon d0 kr gr).getD i []).getD j (some 0)
        = if kr[i] ≤ gr[j] then none
          else some (d0 * (1 + gr[j]) / (kr[i] - gr[j])) := by
      rw [hrow, hrow2, List.getD_eq_getElem _ _ hjlen]
      simp
    rw [hcell, List.getD_eq_getElem _ _ hi, List.getD_eq_getElem _ _ hj]
    constructor
    · split_ifs with h
      · simpa using h
      · simpa using h
    · intro h
      rw [if_neg (not_le.mpr h)]

/-- Witness for `gordon_error_and_sensitivity_policy`: `ke = 1% ≤ g = 3%`
gives the error dict, `ke = 10% > g = 3%` gives a price, and the
corresponding sensitivity cell is numeric. -/
theorem gordon_error_and_sensitivity_policy_witness :
    gordon_growth (DDMState.mk none none) (some 1) (some (3/100))
        (some (1/100)) = .error ∧
    (∃ r, gordon_growth (DDMState.mk none none) (some 1) (some (3/100))
        (some (1/10)) = .ok r) ∧
    (((sensitivity_gordon 1 [1/10] [3/100]).getD 0 []).getD 0 (some 0)
      = some (1 * (1 + (3/100 : ℚ)) / (1/10 - 3/100))) := by
  refine ⟨?_, ?_, ?_⟩
  · exact (gordon_error_and_sensitivity_policy (DDMState.mk none none) 1
      (3/100) (1/100) [] []).1 (by norm_num)
  · exact (gordon_error_and_sensitivity_policy (DDMState.mk none none) 1
      (3/100) (1/10) [] []).2.1 (by norm_num)
  · have h := ((gordon_error_and_sensitivity_policy (DDMState.mk none none)
      1 (3/100) (1/10) [1/10] [3/100]).2.2 0 0 (by decide) (by decide)).2
      (by norm_num)
    simpa using h

/-- C7: `_peer_median` ignores peers whose metric is missing or zero, is
invariant under reordering of the peer set (it sorts the kept values),
and returns the conventional odd/even midpoint — in particular the median
of `{10, 12, 15}` is `12` and the median of `{8, 10, 12, 15}` is `11`. -/
theorem peer_median_ignores_and_midpoint :
    (∀ (l1 l2 : List PeerData) (metric : PeerData → Option ℚ),
      l1.Perm l2 → peer_median l1 metric = peer_median l2 metric) ∧
    (∀ (l : List PeerData) (p : PeerData) (metric : PeerData → Option ℚ),
      metric p = none → peer_median (p :: l) metric = peer_median l metric) ∧
    (∀ (l : List PeerData) (p : PeerData) (metric : PeerData → Option ℚ),
      metric p = some 0 →
      peer_median (p :: l) metric = peer_median l metric) ∧
    peer_median [PeerData.mk (some 10) none none,
      PeerData.mk (some 12) none none, PeerData.mk (some 15) none none]
      (·.pe) = some 12 ∧
    peer_median [PeerData.mk (some 8) none none,
      PeerData.mk (some 10) none none, PeerData.mk (some 12) none none,
      PeerData.mk (some 15) none none] (·.pe) = some 11 := by
  refine ⟨?_, ?_, ?_, ?_, ?_⟩
  · intro l1 l2 metric hperm
    have hv : (peerValues l1 metric).Perm (peerValues l2 metric) :=
      hperm.filterMap _
    have hs : (peerValues l1 metric).insertionSort (· ≤ ·)
        = (peerValues l2 metric).insertionSort (· ≤ ·) :=
      @List.eq_of_perm_of_sorted ℚ (· ≤ ·) _ _ _
        (((List.perm_insertionSort _ _).trans hv).trans
          (List.perm_insertionSort _ _).symm)
        (List.sorted_insertionSort _ _) (List.sorted_insertionSort _ _)
    rw [peer_median, peer_median, hs]
  · intro l p metric hp
    rw [peer_median, peer_median,
      show peerValues (p :: l) metric = peerValues l metric by
        simp [peerValues, hp]]
  · intro l p metric hp
    rw [peer_median, peer_median,
      show peerValues (p :: l) metric = peerValues l metric by
        simp [peerValues, hp]]
  · have hv : peerValues [PeerData.mk (some 10) none none,
        PeerData.mk (some 12) none none, PeerData.mk (some 15) none none]
        (·.pe) = [10, 12, 15] := by
      norm_num [peerValues, List.filterMap_cons]
    have hs : (([10, 12, 15] : List ℚ)).insertionSort (· ≤ ·)
        = [10, 12, 15] := by
      norm_num [List.insertionSort, List.orderedInsert]
    simp only [peer_median, hv, hs]
    rw [if_neg (by simp : ¬ ([10, 12, 15] : List ℚ) = [])]
    norm_num
  · have hv : peerValues [PeerData.mk (some 8) none none,
        PeerData.mk (some 10) none none, PeerData.mk (some 12) none none,
        PeerData.mk (some 15) none none] (·.pe) = [8, 10, 12, 15] := by
      norm_num [peerValues, List.filterMap_cons]
    have hs : (([8, 10, 12, 15] : List ℚ)).insertionSort (· ≤ ·)
        = [8, 10, 12, 15] := by
      norm_num [List.insertionSort, List.orderedInsert]
    simp only [peer_median, hv, hs]
    rw [if_neg (by simp : ¬ ([8, 10, 12, 15] : List ℚ) = [])]
    norm_num

/-- Witness for `peer_median_ignores_and_midpoint`: swapping two peers,
and inserting a missing-metric peer, leaves the median unchanged. -/
theorem peer_median_ignores_and_midpoint_witness :
    peer_median [PeerData.mk (some 12) none none,
        PeerData.mk (some 10) none none] (·.pe)
      = peer_median [PeerData.mk (some 10) none none,
        PeerData.mk (some 12) none none] (·.pe) ∧
    peer_median [PeerData.mk none (some 7) none,
        PeerData.mk (some 10) none none] (·.pe)
      = peer_median [PeerData.mk (some 10) none none] (·.pe) :=
  ⟨peer_median_ignores_and_midpoint.1 _ _ (·.pe) (List.Perm.swap _ _ _),
   peer_median_ignores_and_midpoint.2.1 _ _ (·.pe) rfl⟩

/-- C9: `parse_num` is total (never raises): numeric input passes
through, a string whose cleaned form (commas and double quotes removed,
whitespace stripped) parses as a number yields that number, and empty or
malformed input is coerced to `0.0` — illustrated on `" 1,234.5 "` and
`"abc"`. -/
theorem parse_num_total_spec :
    (∀ q : ℚ, parse_num (.num q) = q) ∧
    parse_num (.str "") = 0 ∧
    (∀ (s : String) (q : ℚ), parseFloat? (cleanNumString s) = some q →
      parse_num (.str s) = q) ∧
    (∀ s : String, parseFloat? (cleanNumString s) = none →
      parse_num (.str s) = 0) ∧
    parse_num (.str " 1,234.5 ") = 2469/2 ∧
    parse_num (.str "abc") = 0 := by
  refine ⟨?_, ?_, ?_, ?_, ?_, ?_⟩
  · intro q
    rw [parse_num]
    by_cases h : q = 0
    · rw [if_pos (by simp [pyFalsy, h]), h]
    · rw [if_neg (by simp [pyFalsy, h])]
  · rfl
  · intro s q h
    rw [parse_num]
    by_cases hs : s = ""
    · subst hs
      rw [show cleanNumString "" = [] from rfl,
        show parseFloat? [] = none from rfl] at h
      exact absurd h (by simp)
    · rw [if_neg (by simp [pyFalsy, hs]), h]
      rfl
  · intro s h
    rw [parse_num]
    by_cases hs : s = ""
    · rw [if_pos (by simp [pyFalsy, hs])]
    · rw [if_neg (by simp [pyFalsy, hs]), h]
      rfl
  · rw [parse_num, if_neg (by decide),
      show cleanNumString " 1,234.5 " = ['1', '2', '3', '4', '.', '5']
        from rfl,
      show parseFloat? ['1', '2', '3', '4', '.', '5']
          = some (1 * ((digitsToNat ['1', '2', '3', '4', '5'] : ℚ)
            / 10 ^ (['5'] : List Char).length)) from rfl,
      show digitsToNat ['1', '2', '3', '4', '5'] = 12345 from rfl,
      Option.getD_some]
    norm_num
  · rfl

/-- Witness for `parse_num_total_spec`: concrete instances of the
quantified clauses. -/
theorem parse_num_total_spec_witness :
    parse_num (.num (7/2)) = 7/2 ∧
    parse_num (.str "x9") = 0 :=
  ⟨parse_num_total_spec.1 (7/2),
   parse_num_total_spec.2.2.2.1 "x9" (by rfl)⟩

/-- A `foldl min` is bounded by its initial value. -/
theorem foldl_min_le_init (l : List ℚ) : ∀ a : ℚ, l.foldl min a ≤ a := by
  induction l with
  | nil => intro a; simp
  | cons x xs ih =>
    intro a
    calc xs.foldl min (min a x) ≤ min a x := ih (min a x)
    _ ≤ a := min_le_left _ _

/-- A `foldl max` is bounded below by its initial value. -/
theorem le_foldl_max_init (l : List ℚ) : ∀ a : ℚ, a ≤ l.foldl max a := by
  induction l with
  | nil => intro a; simp
  | cons x xs ih =>
    intro a
    calc a ≤ max a x := le_max_left _ _
    _ ≤ xs.foldl max (max a x) := ih (max a x)

/-- A `foldl min` times the element count bounds the sum from below. -/
theorem foldl_min_mul_le_sum (l : List ℚ) :
    ∀ a : ℚ, l.foldl min a * (l.length + 1) ≤ a + l.sum := by
  induction l with
  | nil => intro a; simp
  | cons x xs ih =>
    intro a
    have h1 := ih (min a x)
    have h2 : xs.foldl min (min a x) ≤ min a x := foldl_min_le_init xs _
    have h3 : min a x ≤ a := min_le_left _ _
    have h4 : min a x ≤ x := min_le_right _ _
    have h5 : xs.foldl min (min a x) ≤ a :=
      le_trans h2 h3
    simp only [List.foldl_cons, List.length_cons, List.sum_cons]
    push_cast
    push_cast at h1
    nlinarith

/-- The sum is bounded above by `foldl max` times the element count. -/
theorem sum_le_foldl_max_mul (l : List ℚ) :
    ∀ a : ℚ, a + l.sum ≤ l.foldl max a * (l.length + 1) := by
  induction l with
  | nil => intro a; simp
  | cons x xs ih =>
    intro a
    have h1 := ih (max a x)
    have h2 : max a x ≤ xs.foldl max (max a x) := le_foldl_max_init xs _
    have h3 : a ≤ max a x := le_max_left _ _
    have h4 : x ≤ max a x := le_max_right _ _
    have h5 : a ≤ xs.foldl max (max a x) := le_trans h3 h2
    simp only [List.foldl_cons, List.length_cons, List.sum_cons]
    push_cast
    push_cast at h1
    nlinarith

/-- On a nonempty list, Python `min ≤ mean ≤ max`. -/
theorem pyMin_le_avg_le_pyMax (l : List ℚ) (h : l ≠ []) :
    pyMin l ≤ l.sum / l.length ∧ l.sum / l.length ≤ pyMax l := by
  obtain ⟨x, xs, rfl⟩ := List.exists_cons_of_ne_nil h
  have hlen : (0 : ℚ) < ((x :: xs).length : ℚ) := by
    simp only [List.length_cons]
    push_cast
    positivity
  constructor
  · rw [le_div_iff₀ hlen]
    have := foldl_min_mul_le_sum xs x
    simp only [pyMin, List.sum_cons, List.length_cons]
    push_cast
    push_cast at this
    linarith
  · rw [div_le_iff₀ hlen]
    have := sum_le_foldl_max_mul xs x
    simp only [pyMax, List.sum_cons, List.length_cons]
    push_cast
    push_cast at this
    linarith

/-- C10: in both `DDMModel.run_all` and `RelativeValuation.run_all`, the
`fair_value_*` keys are present iff some constituent method produced a
strictly positive `target_price`, and then `fair_value_low`,
`fair_value_avg`, `fair_value_high` are the minimum, arithmetic mean and
maximum of those prices, so low ≤ avg ≤ high. -/
theorem run_all_fair_value_range (ds : DDMState)
    (d0? gh? gs? dke? : Option ℚ) (rs : RelState)
    (tpe? tpb? tev? : Option ℚ) :
    (((ddm_run_all ds d0? gh? gs? dke?).fair.isSome ↔
        ddmPrices (ddm_run_all ds d0? gh? gs? dke?).gordon
          (ddm_run_all ds d0? gh? gs? dke?).two_stage
          (ddm_run_all ds d0? gh? gs? dke?).h_model ≠ []) ∧
      (∀ f, (ddm_run_all ds d0? gh? gs? dke?).fair = some f →
        f.low = pyMin (ddmPrices (ddm_run_all ds d0? gh? gs? dke?).gordon
            (ddm_run_all ds d0? gh? gs? dke?).two_stage
            (ddm_run_all ds d0? gh? gs? dke?).h_model) ∧
        f.high = pyMax (ddmPrices (ddm_run_all ds d0? gh? gs? dke?).gordon
            (ddm_run_all ds d0? gh? gs? dke?).two_stage
            (ddm_run_all ds d0? gh? gs? dke?).h_model) ∧
        f.avg = (ddmPrices (ddm_run_all ds d0? gh? gs? dke?).gordon
            (ddm_run_all ds d0? gh? gs? dke?).two_stage
            (ddm_run_all ds d0? gh? gs? dke?).h_model).sum
          / (ddmPrices (ddm_run_all ds d0? gh? gs? dke?).gordon
            (ddm_run_all ds d0? gh? gs? dke?).two_stage
            (ddm_run_all ds d0? gh? gs? dke?).h_model).length ∧
        f.low ≤ f.avg ∧ f.avg ≤ f.high)) ∧
    (((rel_run_all rs tpe? tpb? tev?).fair.isSome ↔
        relPrices (rel_run_all rs tpe? tpb? tev?).pe
          (rel_run_all rs tpe? tpb? tev?).pb
          (rel_run_all rs tpe? tpb? tev?).ev_ebitda ≠ []) ∧
      (∀ f, (rel_run_all rs tpe? tpb? tev?).fair = some f →
        f.low = pyMin (relPrices (rel_run_all rs tpe? tpb? tev?).pe
            (rel_run_all rs tpe? tpb? tev?).pb
            (rel_run_all rs tpe? tpb? tev?).ev_ebitda) ∧
        f.high = pyMax (relPrices (rel_run_all rs tpe? tpb? tev?).pe
            (rel_run_all rs tpe? tpb? tev?).pb
            (rel_run_all rs tpe? tpb? tev?).ev_ebitda) ∧
        f.avg = (relPrices (rel_run_all rs tpe? tpb? tev?).pe
            (rel_run_all rs tpe? tpb? tev?).pb
            (rel_run_all rs tpe? tpb? tev?).ev_ebitda).sum
          / (relPrices (rel_run_all rs tpe? tpb? tev?).pe
            (rel_run_all rs tpe? tpb? tev?).pb
            (rel_run_all rs tpe? tpb? tev?).ev_ebitda).length ∧
        f.low ≤ f.avg ∧ f.avg ≤ f.high)) := by
  constructor
  · rw [ddm_run_all]
    constructor
    · by_cases h : ddmPrices (gordon_growth ds d0? gs? dke?)
          (two_stage_ddm ds d0? gh? gs? 5 dke?)
          (h_model ds d0? gh? gs? 5 dke?) = []
      · simp [h]
      · simp [h]
    · intro f hf
      by_cases h : ddmPrices (gordon_growth ds d0? gs? dke?)
          (two_stage_ddm ds d0? gh? gs? 5 dke?)
          (h_model ds d0? gh? gs? 5 dke?) = []
      · simp [h] at hf
      · rw [if_neg h] at hf
        have hf' : f = fairOf (ddmPrices (gordon_growth ds d0? gs? dke?)
            (two_stage_ddm ds d0? gh? gs? 5 dke?)
            (h_model ds d0? gh? gs? 5 dke?)) := by
          exact Option.some_injective _ hf.symm
        subst hf'
        have hb := pyMin_le_avg_le_pyMax _ h
        refine ⟨rfl, rfl, rfl, ?_, ?_⟩
        · calc (fairOf _).low = pyMin _ := rfl
          _ ≤ _ := hb.1
        · calc (fairOf _).avg = _ / _ := rfl
          _ ≤ pyMax _ := hb.2
  · rw [rel_run_all]
    constructor
    · by_cases h : relPrices (valuation_pe rs tpe?) (valuation_pb rs tpb?)
          (valuation_ev_ebitda rs tev?) = []
      · simp [h]
      · simp [h]
    · intro f hf
      by_cases h : relPrices (valuation_pe rs tpe?) (valuation_pb rs tpb?)
          (valuation_ev_ebitda rs tev?) = []
      · simp [h] at hf
      · rw [if_neg h] at hf
        have hf' : f = fairOf (relPrices (valuation_pe rs tpe?)
            (valuation_pb rs tpb?) (valuation_ev_ebitda rs tev?)) := by
          exact Option.some_injective _ hf.symm
        subst hf'
        have hb := pyMin_le_avg_le_pyMax _ h
        refine ⟨rfl, rfl, rfl, ?_, ?_⟩
        · calc (fairOf _).low = pyMin _ := rfl
          _ ≤ _ := hb.1
        · calc (fairOf _).avg = _ / _ := rfl
          _ ≤ pyMax _ := hb.2

/-- Witness for `run_all_fair_value_range`: a concrete
`RelativeValuation.run_all` with P/E price 10 and P/B price 12 (EBITDA
missing) yields `fair = ⟨10, 12, 11⟩` with low ≤ avg ≤ high. -/
theorem run_all_fair_value_range_witness :
    (FairRange.mk 10 12 11).low ≤ (FairRange.mk 10 12 11).avg ∧
    (FairRange.mk 10 12 11).avg ≤ (FairRange.mk 10 12 11).high := by
  have hf : (rel_run_all
      (RelState.mk (RelFin.mk (some 2) (some 3) none 0 1) [])
      (some 5) (some 4) none).fair = some (FairRange.mk 10 12 11) := by
    norm_num [rel_run_all, valuation_pe, valuation_pb,
      valuation_ev_ebitda, relPrices, PEOut.tp?, PBOut.tp?, EVOut.tp?,
      Option.orElse, fairOf, pyMin, pyMax, min_def, max_def,
      List.filterMap_cons, List.filter]
    exact fun hc => absurd hc (by simp)
  have h := ((run_all_fair_value_range (DDMState.mk none none) none none
      none none (RelState.mk (RelFin.mk (some 2) (some 3) none 0 1) [])
      (some 5) (some 4) none).2.2 (FairRange.mk 10 12 11) hf)
  exact ⟨h.2.2.2.1, h.2.2.2.2⟩

/-- The part of an `FCFEModel` that `sensitivity_analysis` never touches:
the historical record and every assumption except the terminal growth it
temporarily overrides. -/
def frameOf (m : FCFEModel) : FCFEHist × Assumptions :=
  (m.historical, { m.assumptions with terminal_growth := 0 })

/-- One sensitivity grid cell only rewrites Ke, terminal growth,
projections and valuation. -/
theorem sensCell_frame (sh k g : ℚ) (m : FCFEModel) :
    frameOf (sensCell sh k g m).2 = frameOf m := rfl

/-- A sensitivity row preserves the untouched frame. -/
theorem sensRow_frame (sh k : ℚ) : ∀ (gs : List ℚ) (m : FCFEModel),
    frameOf (sensRow sh k gs m).2 = frameOf m
  | [], _ => rfl
  | g :: gs, m => by
    rw [show (sensRow sh k (g :: gs) m).2
        = (sensRow sh k gs (sensCell sh k g m).2).2 from rfl,
      sensRow_frame sh k gs (sensCell sh k g m).2, sensCell_frame]

/-- The whole sensitivity grid preserves the untouched frame. -/
theorem sensRows_frame (sh : ℚ) (gr : List ℚ) :
    ∀ (ks : List ℚ) (m : FCFEModel),
    frameOf (sensRows sh gr ks m).2 = frameOf m
  | [], _ => rfl
  | k :: ks, m => by
    rw [show (sensRows sh gr (k :: ks) m).2
        = (sensRows sh gr ks (sensRow sh k gr m).2).2 from rfl,
      sensRows_frame sh gr ks (sensRow sh k gr m).2, sensRow_frame]

/-- The method `project_fcfe` only rewrites the projections, from the assumptions
and the historical record. -/
theorem project_fcfe_projections (x : FCFEModel) :
    (project_fcfe x).projections
      = some (projectLoop x.assumptions 0 x.assumptions.projection_years
          (x.historical.net_income.getLastD 0) x.assumptions.base_revenue
          (x.historical.nwc.getLastD 0)) := rfl

/-- C2 amended: `sensitivity_analysis` restores `ke_components["ke"]` and
the assumptions, leaves the historical record untouched, and re-derives
the projections from the restored inputs (so they equal the pre-call
projections whenever those were up to date) — but the `valuation` dict is
NOT restored: it keeps the last grid cell's result. -/
theorem sensitivity_restores_core_state (m : FCFEModel) (kr gr : List ℚ)
    (sh : ℚ) :
    ((sensitivity_analysis m kr gr sh).2.ke = m.ke) ∧
    ((sensitivity_analysis m kr gr sh).2.assumptions = m.assumptions) ∧
    ((sensitivity_analysis m kr gr sh).2.historical = m.historical) ∧
    ((sensitivity_analysis m kr gr sh).2.projections
        = (project_fcfe m).projections) ∧
    (m.projections = (project_fcfe m).projections →
      (sensitivity_analysis m kr gr sh).2.projections = m.projections) := by
  have hframe : frameOf (sensRows sh gr kr m).2 = frameOf m :=
    sensRows_frame sh gr kr m
  have hh : (sensRows sh gr kr m).2.historical = m.historical :=
    congrArg Prod.fst hframe
  have ha : ({ (sensRows sh gr kr m).2.assumptions with
        terminal_growth := (0 : ℚ) } : Assumptions)
      = { m.assumptions with terminal_growth := (0 : ℚ) } :=
    congrArg Prod.snd hframe
  have ha' : ({ (sensRows sh gr kr m).2.assumptions with
        terminal_growth := m.assumptions.terminal_growth } : Assumptions)
      = m.assumptions :=
    congrArg (fun a : Assumptions =>
      { a with terminal_growth := m.assumptions.terminal_growth }) ha
  have key : ∀ x : FCFEModel, x.assumptions = m.assumptions →
      x.historical = m.historical →
      (project_fcfe x).projections = (project_fcfe m).projections := by
    intro x h1 h2
    rw [project_fcfe_projections, project_fcfe_projections, h1, h2]
  have hp : (sensitivity_analysis m kr gr sh).2.projections
      = (project_fcfe m).projections := key _ ha' hh
  exact ⟨rfl, ha', hh, hp, fun hm => hp.trans hm.symm⟩

/-- The concrete FCFE model used to exercise `sensitivity_analysis`: one
historical year, one projection year, `Ke = 100%`, no valuation yet. -/
def exFCFE : FCFEModel :=
  FCFEModel.mk (set_historical [2024] [100] [0] [0] [0] [0] [0])
    (Assumptions.mk 1 [0] [0] [0] [0] [0] [0] 0 100) 1 none none

/-- C2 counterexample: after a 1×1 sensitivity grid, the model's
`valuation` holds the last grid cell's valuation dict rather than its
pre-call value (`{}` here), so the state is not fully restored. -/
theorem sensitivity_valuation_not_restored :
    (sensitivity_analysis exFCFE [1/2] [0] 1).2.valuation
      ≠ exFCFE.valuation := by
  obtain ⟨v, hv⟩ : ∃ v,
      (sensitivity_analysis exFCFE [1/2] [0] 1).2.valuation = some v :=
    ⟨_, rfl⟩
  rw [hv, show exFCFE.valuation = none from rfl]
  simp

/-- Witness for `sensitivity_restores_core_state`, on `exFCFE` with its
projections freshly computed. -/
theorem sensitivity_restores_core_state_witness :
    (sensitivity_analysis (project_fcfe exFCFE) [1/2] [0] 1).2.projections
      = (project_fcfe exFCFE).projections :=
  (sensitivity_restores_core_state (project_fcfe exFCFE) [1/2] [0]
    1).2.2.2.2 rfl

end ModelFin
